import Mathlib

/-!
Verification of the retention-cleanup job in clear_elasticsearch_indices.py.

The script connects to a list of Elasticsearch nodes, lists indices matching
a wildcard pattern, parses the trailing date segment of each index name,
deletes the indices whose date is strictly before a cutoff (today minus the
retention window), and emails the aggregated per-node deletion results.

The embedding below translates the script into pure Lean functions.  The two
external collaborators (the Elasticsearch client library and the SMTP
library) are modelled as environments supplying the outcome of each call;
the job functions are instrumented to also return the trace of calls they
issue (delete requests, connection attempts, send attempts), so that claims
about which requests are issued can be stated.
-/

set_option maxRecDepth 20000

/-- Decidable equality for Except values, needed to evaluate concrete runs. -/
instance exceptDecEq {e a : Type} [DecidableEq e] [DecidableEq a] :
    DecidableEq (Except e a) := fun x y =>
  match x, y with
  | .ok v, .ok w =>
    if h : v = w then .isTrue (by rw [h]) else .isFalse (by simp [h])
  | .error v, .error w =>
    if h : v = w then .isTrue (by rw [h]) else .isFalse (by simp [h])
  | .ok _, .error _ => .isFalse (by simp)
  | .error _, .ok _ => .isFalse (by simp)

/-- The ASCII apostrophe character as a string, used in error messages. -/
def sqc : String := String.mk [Char.ofNat 39]

/-! ### Date-string extraction (source lines 59 to 61)

The script computes `str(index).split(dash)[-1]`, replaces each dot by a
space, and parses the result with `datetime.strptime(s, pattern)` where the
pattern is year month day (percent-Y percent-m percent-d), then takes
`.date()`.  Dates are compared chronologically, which for the proleptic
Gregorian calendar of the Python datetime module is exactly comparison of
`date.toordinal()` values; the embedding therefore represents every date by
its ordinal (a Nat, with January 1 of year 1 being day 1). -/

/-- Python str.split on the dash character. -/
def splitDash : List Char → List (List Char)
  | [] => [[]]
  | c :: rest =>
    let r := splitDash rest
    if c = '-' then [] :: r
    else
      match r with
      | [] => [[c]]
      | g :: gs => (c :: g) :: gs

/-- Python str.replace of every dot by a space (a character map, since both
the pattern and the replacement are single characters). -/
def dotToSpace (cs : List Char) : List Char :=
  cs.map (fun c => if c = '.' then ' ' else c)

/-- Whitespace characters matched by the regex whitespace class (ASCII). -/
def isPySpace (c : Char) : Bool :=
  c == ' ' || c == '\x09' || c == '\x0a' || c == '\x0b' || c == '\x0c' || c == '\x0d'

/-- Numeric value of an ASCII digit, none for any other character. -/
def digitVal (c : Char) : Option Nat :=
  if '0' ≤ c ∧ c ≤ '9' then some (c.toNat - 48) else none

/-- Matches of the strptime year directive: exactly four ASCII digits. -/
def yearMatches : List Char → List (Nat × List Char)
  | a :: b :: c :: d :: rest =>
    match digitVal a, digitVal b, digitVal c, digitVal d with
    | some w, some x, some y, some z => [(1000 * w + 100 * x + 10 * y + z, rest)]
    | _, _, _, _ => []
  | _ => []

/-- Matches of the strptime month directive, in regex alternation order:
one followed by a digit zero to two, then zero followed by one to nine,
then a single digit one to nine. -/
def monthMatches (cs : List Char) : List (Nat × List Char) :=
  (match cs with
    | '1' :: c :: rest =>
      if c == '0' || c == '1' || c == '2' then [(10 + (c.toNat - 48), rest)] else []
    | _ => []) ++
  (match cs with
    | '0' :: c :: rest =>
      if '1' ≤ c ∧ c ≤ '9' then [(c.toNat - 48, rest)] else []
    | _ => []) ++
  (match cs with
    | c :: rest =>
      if '1' ≤ c ∧ c ≤ '9' then [(c.toNat - 48, rest)] else []
    | [] => [])

/-- Matches of the strptime day directive, in regex alternation order:
three followed by zero or one, then one or two followed by a digit, then
zero followed by one to nine, then a single digit one to nine. -/
def dayMatches (cs : List Char) : List (Nat × List Char) :=
  (match cs with
    | '3' :: c :: rest =>
      if c == '0' || c == '1' then [(30 + (c.toNat - 48), rest)] else []
    | _ => []) ++
  (match cs with
    | c :: d :: rest =>
      match digitVal d with
      | some v => if c == '1' || c == '2' then [(10 * (c.toNat - 48) + v, rest)] else []
      | none => []
    | _ => []) ++
  (match cs with
    | '0' :: c :: rest =>
      if '1' ≤ c ∧ c ≤ '9' then [(c.toNat - 48, rest)] else []
    | _ => []) ++
  (match cs with
    | c :: rest =>
      if '1' ≤ c ∧ c ≤ '9' then [(c.toNat - 48, rest)] else []
    | [] => [])

/-- Remainders after the regex one-or-more-whitespace element; greedy, so
the remainder after the longest consumed run comes first. -/
def wsSplits : List Char → List (List Char)
  | [] => []
  | c :: rest => if isPySpace c then wsSplits rest ++ [rest] else []

/-- All full matches of the strptime pattern year month day against the
character list, in regex backtracking order. -/
def ymdCandidates (cs : List Char) : List (Nat × Nat × Nat) :=
  (yearMatches cs).flatMap (fun p =>
    (wsSplits p.2).flatMap (fun r2 =>
      (monthMatches r2).flatMap (fun q =>
        (wsSplits q.2).flatMap (fun r4 =>
          (dayMatches r4).filterMap (fun t =>
            if t.2.isEmpty then some (p.1, q.1, t.1) else none)))))

/-- The regex phase of strptime: the first full match, if any. -/
def strptimeYmd (cs : List Char) : Option (Nat × Nat × Nat) :=
  (ymdCandidates cs).head?

/-- Gregorian leap-year test, as in the Python datetime module. -/
def isLeapYear (y : Nat) : Bool :=
  y % 4 == 0 && (y % 100 != 0 || y % 400 == 0)

/-- Number of days in a month of a given year. -/
def daysInMonth (y m : Nat) : Nat :=
  if m == 2 then (if isLeapYear y then 29 else 28)
  else if m == 4 || m == 6 || m == 9 || m == 11 then 30
  else 31

/-- Days in the year strictly before the first day of month m. -/
def daysBeforeMonth (y m : Nat) : Nat :=
  let base :=
    match m with
    | 2 => 31 | 3 => 59 | 4 => 90 | 5 => 120 | 6 => 151 | 7 => 181
    | 8 => 212 | 9 => 243 | 10 => 273 | 11 => 304 | 12 => 334 | _ => 0
  if 3 ≤ m ∧ isLeapYear y then base + 1 else base

/-- Python date.toordinal: the day number of year y, month m, day d, with
January 1 of year 1 being day 1. -/
def toOrdinal (y m d : Nat) : Nat :=
  365 * (y - 1) + (y - 1) / 4 - (y - 1) / 100 + (y - 1) / 400 + daysBeforeMonth y m + d

/-- datetime.strptime with the year month day pattern followed by .date():
the ordinal of the parsed calendar date, or the ValueError message when the
regex does not match or the date components are invalid. -/
def parseDateYmd (cs : List Char) : Except String Nat :=
  match strptimeYmd cs with
  | none =>
    .error ("time data " ++ sqc ++ String.mk cs ++ sqc ++
      " does not match format " ++ sqc ++ "%Y %m %d" ++ sqc)
  | some (y, m, d) =>
    if y < 1 then .error ("year " ++ toString y ++ " is out of range")
    else if m < 1 || 12 < m then .error ("month must be in 1..12")
    else if d < 1 || daysInMonth y m < d then .error ("day is out of range for month")
    else .ok (toOrdinal y m d)

/-- The date substring used for an index name: the text after the last dash,
with each dot replaced by a space (source lines 59 to 61). -/
def indexDateChars (index : String) : List Char :=
  dotToSpace ((splitDash index.data).getLastD [])

/-- The parsed trailing date of an index name, as an ordinal, or the
ValueError message raised by strptime or the date constructor. -/
def parseIndexDate (index : String) : Except String Nat :=
  parseDateYmd (indexDateChars index)

/-- Whether the pruning loop treats an index as a deletion candidate: its
trailing date parses and is strictly before the cutoff (source line 62). -/
def isStale (cutoff : Int) (index : String) : Bool :=
  match parseIndexDate index with
  | .ok d => decide ((d : Int) < cutoff)
  | .error _ => false

example : parseIndexDate ("filebeat-2023.12.04") = .ok 738858 := by decide

example : parseIndexDate ("filebeat-2023.12.03") = .ok 738857 := by decide

example : parseIndexDate ("filebeat-2024.06.01") = .ok 739038 := by decide

example : (parseIndexDate ("filebeat-bad")).isOk = false := by decide

example : (parseIndexDate ("filebeat-2023.02.30")).isOk = false := by decide

/-! ### The Elasticsearch client environment (external collaborator)

Per the external-interface contract, the client library exposes index
listing by wildcard pattern (raising a distinguishable not-found error when
the pattern matches nothing), index deletion by exact name (returning a
response whose acknowledged field is an optional boolean), and a
distinguishable transport slash connection error type.  An ESNode value
supplies the outcome of each call on one connected node; an ESEnv supplies
the outcome of establishing a connection to each node address. -/

/-- An exception raised by an Elasticsearch API call: the not-found error,
or the transport-level connection error carrying a message. -/
inductive ESExc where
  | notFound : ESExc
  | connError (emsg : String) : ESExc
deriving DecidableEq, Repr

/-- The behaviour of one connected Elasticsearch node: the outcome of
listing indices by pattern, and of deleting one index by name.  A delete
response is the value of its acknowledged field, none when absent. -/
structure ESNode where
  getIndices : String → Except ESExc (List String)
  deleteIndex : String → Except ESExc (Option Bool)

/-- The connection environment: for each node address, either a connected
client or the message of the transport error raised by the constructor. -/
structure ESEnv where
  connect : String → Except String ESNode

/-- A DeletionRecord: the dict mapping each deleted index name to the
acknowledged field of its delete response (insertion order). -/
abbrev DelRecord := List (String × Option Bool)

/-- A NodeReport: the dict with the node address as its single key, mapped
to the DeletionRecord (source line 70). -/
abbrev NodeReport := String × DelRecord

/-- A Python exception escaping the job: the ValueError of a failed date
parse, a SystemExit raised by the script, or an SMTP library exception. -/
inductive PyExc where
  | valueError (msg : String) : PyExc
  | systemExit (msg : String) : PyExc
  | smtpException (msg : String) : PyExc
deriving DecidableEq, Repr

/-- An exception that aborts the pruning loop of one node. -/
inductive LoopRaise where
  | notFound : LoopRaise
  | connError (emsg : String) : LoopRaise
  | parseFail (msg : String) : LoopRaise
deriving DecidableEq, Repr

/-- Outcome of the pruning loop over the listed index names: the delete
requests issued (in order), the DeletionRecord accumulated so far, and the
exception that aborted the loop, if any. -/
structure LoopOut where
  reqs : List String
  record : DelRecord
  raised : Option LoopRaise
deriving DecidableEq, Repr

/-- The loop of source lines 57 to 64: for each listed index name, parse
its trailing date (a failed parse raises ValueError), compare it to the
cutoff, and issue a delete request when it is strictly older, recording the
acknowledged field of the response. -/
def pruneLoop (client : ESNode) (cutoff : Int) : List String → LoopOut
  | [] => ⟨[], [], none⟩
  | index :: rest =>
    match parseIndexDate index with
    | .error m => ⟨[], [], some (.parseFail m)⟩
    | .ok d =>
      if (d : Int) < cutoff then
        match client.deleteIndex index with
        | .error .notFound => ⟨[index], [], some .notFound⟩
        | .error (.connError m) => ⟨[index], [], some (.connError m)⟩
        | .ok ack =>
          let r := pruneLoop client cutoff rest
          ⟨index :: r.reqs, (index, ack) :: r.record, r.raised⟩
      else pruneLoop client cutoff rest

/-- Outcome of the per-node method: the delete requests issued, and either
the NodeReport returned or the exception propagating out. -/
structure PruneOut where
  reqs : List String
  result : Except PyExc NodeReport
deriving DecidableEq, Repr

/-- The SystemExit message raised when a connection error is caught in the
per-node method (source line 69). -/
def failedConnectMsg (node : String) : String :=
  "Failed to connect to " ++ sqc ++ node ++ sqc

/-- The method of source lines 45 to 70: list the indices matching the
pattern and run the pruning loop.  A not-found error (from the listing or
from a delete) is caught and the record accumulated so far is returned; a
connection error is caught and re-raised as a SystemExit naming the node; a
ValueError from a failed date parse propagates uncaught. -/
def deleteIndicesOp (client : ESNode) (node pfx : String) (cutoff : Int) : PruneOut :=
  match client.getIndices pfx with
  | .error .notFound => ⟨[], .ok (node, [])⟩
  | .error (.connError _) => ⟨[], .error (.systemExit (failedConnectMsg node))⟩
  | .ok names =>
    let r := pruneLoop client cutoff names
    match r.raised with
    | none => ⟨r.reqs, .ok (node, r.record)⟩
    | some .notFound => ⟨r.reqs, .ok (node, r.record)⟩
    | some (.connError _) => ⟨r.reqs, .error (.systemExit (failedConnectMsg node))⟩
    | some (.parseFail m) => ⟨r.reqs, .error (.valueError m)⟩

/-- Outcome of the run method: the connection attempts made (in order), the
delete requests issued (tagged with their node), and either the list of
NodeReports or the exception propagating out. -/
structure RunOut where
  connectCalls : List String
  deleteReqs : List (String × String)
  result : Except PyExc (List NodeReport)
deriving DecidableEq, Repr

/-- The run method (source lines 34 to 43) together with the lazy
connection generator (source lines 72 to 84): for each node address in
order, construct a client (a transport error raised there becomes a
SystemExit naming the node), prune its indices, and append the NodeReport;
any exception aborts the loop, discarding the reports accumulated so far. -/
def runJob (env : ESEnv) (pfx : String) (cutoff : Int) : List String → RunOut
  | [] => ⟨[], [], .ok []⟩
  | node :: rest =>
    match env.connect node with
    | .error _ => ⟨[node], [], .error (.systemExit ("TransportError: " ++ node))⟩
    | .ok client =>
      let p := deleteIndicesOp client node pfx cutoff
      match p.result with
      | .error e => ⟨[node], p.reqs.map (fun i => (node, i)), .error e⟩
      | .ok rep =>
        let r := runJob env pfx cutoff rest
        ⟨node :: r.connectCalls, p.reqs.map (fun i => (node, i)) ++ r.deleteReqs,
          r.result.map (fun l => rep :: l)⟩

/-! ### Construction (source lines 17 to 32) -/

/-- The Python value passed as the es_nodes argument: None, a list of node
address strings, or some other value such as a plain string. -/
inductive NodesArg where
  | pyNone : NodesArg
  | pyList (xs : List String) : NodesArg
  | pyStr (s : String) : NodesArg
deriving DecidableEq, Repr

/-- Python isinstance of list. -/
def NodesArg.isList : NodesArg → Bool
  | .pyList _ => true
  | _ => false

/-- Python truthiness of the argument value. -/
def NodesArg.truthy : NodesArg → Bool
  | .pyNone => false
  | .pyList xs => !xs.isEmpty
  | .pyStr s => !s.isEmpty

/-- The node addresses the run method iterates over (a string iterates as
its characters; None is unreachable because the constructor raised). -/
def NodesArg.asNodes : NodesArg → List String
  | .pyList xs => xs
  | .pyStr s => s.data.map (fun c => String.mk [c])
  | .pyNone => []

/-- The constructed job object: node addresses, index pattern, and the
cutoff date (an ordinal) computed once at construction. -/
structure ESClient where
  es_nodes : List String
  pfx : String
  cutoff_date : Int
deriving DecidableEq, Repr

/-- The constructor (source lines 17 to 32): raise SystemExit when the
argument is not a list and is falsy (the conjunction as written in the
source), otherwise store the nodes, the pattern, and the cutoff date, which
is today minus the retention window. -/
def ESClient.init (es_nodes : NodesArg) (today keep_in_days : Int) (pfx : String) :
    Except PyExc ESClient :=
  if !es_nodes.isList && !es_nodes.truthy then
    .error (.systemExit ("List of one or more Elasticsearch nodes needed"))
  else
    .ok ⟨es_nodes.asNodes, pfx, today - keep_in_days⟩

/-! ### The notifier and the entry point (source lines 86 to 128) -/

/-- The email composed by the notifier: sender, recipient, subject, and the
run result rendered as the body. -/
structure EmailMsg where
  from_addr : String
  to_addr : String
  subject : String
  content : List NodeReport
deriving DecidableEq, Repr

/-- Outcome of the entry point: the connection attempts, the delete
requests issued, the send attempts made to the SMTP relay, and either the
run result or the exception propagating out. -/
structure MainOut where
  connectCalls : List String
  deleteReqs : List (String × String)
  sendCalls : List EmailMsg
  result : Except PyExc (List NodeReport)

/-- The entry point (source lines 110 to 128): run the deletion job over
all nodes, then compose one email from the aggregated results and send it
once through the SMTP relay.  A failed run sends nothing; a failed send
raises the SMTP exception uncaught, after the single send attempt. -/
def mainJob (env : ESEnv) (send : EmailMsg → Except String Unit)
    (nodes : List String) (pfx : String) (cutoff : Int)
    (from_addr to_addr subject : String) : MainOut :=
  let r := runJob env pfx cutoff nodes
  match r.result with
  | .error e => ⟨r.connectCalls, r.deleteReqs, [], .error e⟩
  | .ok reports =>
    let msg : EmailMsg := ⟨from_addr, to_addr, subject, reports⟩
    match send msg with
    | .ok _ => ⟨r.connectCalls, r.deleteReqs, [msg], .ok reports⟩
    | .error m => ⟨r.connectCalls, r.deleteReqs, [msg], .error (.smtpException m)⟩

/-! ### Concrete fixtures used by witnesses and sanity checks -/

/-- A node with one stale and one fresh index; every delete is acknowledged. -/
def nodeA : ESNode :=
  ⟨fun _ => .ok [("filebeat-2023.11.01"), ("filebeat-2024.01.01")],
   fun _ => .ok (some true)⟩

/-- A node whose listing reports the not-found condition. -/
def nodeB : ESNode :=
  ⟨fun _ => .error .notFound, fun _ => .ok (some true)⟩

/-- The two-node environment of the worked scenario. -/
def envAB : ESEnv :=
  ⟨fun n => if n = "A" then .ok nodeA else if n = "B" then .ok nodeB
    else .error ("no such node")⟩

/-- An SMTP relay that accepts every message. -/
def sendOk : EmailMsg → Except String Unit := fun _ => .ok ()

/-- An SMTP relay that refuses every message. -/
def sendFail : EmailMsg → Except String Unit := fun _ => .error ("relay refused")

/-- The cutoff ordinal of the worked scenario: 2024-06-01 minus 180 days is
2023-12-04. -/
def cutoffX : Int := 738858

example : (toOrdinal 2024 6 1 : Int) - 180 = cutoffX := by decide

example : (runJob envAB ("filebeat-*") cutoffX ["A", "B"]).result =
    .ok [("A", [("filebeat-2023.11.01", some true)]), ("B", [])] := by decide

example : (runJob envAB ("filebeat-*") cutoffX ["A", "B"]).deleteReqs =
    [("A", "filebeat-2023.11.01")] := by decide

/-! ### Shared lemmas about the pruning loop and the run -/

theorem except_isOk_iff {e a : Type} (x : Except e a) :
    x.isOk = true ↔ ∃ v, x = .ok v := by
  cases x <;> simp [Except.isOk, Except.toBool]

/-- Every index a delete request is issued for is a stale one. -/
theorem mem_reqs_isStale (client : ESNode) (cutoff : Int) :
    ∀ (names : List String) (index : String),
      index ∈ (pruneLoop client cutoff names).reqs → isStale cutoff index = true := by
  intro names
  induction names with
  | nil => intro index h; simp [pruneLoop] at h
  | cons j rest ih =>
    intro index h
    cases hp : parseIndexDate j with
    | error m => simp [pruneLoop, hp] at h
    | ok d =>
      by_cases hlt : (d : Int) < cutoff
      · cases hd : client.deleteIndex j with
        | error exc =>
          cases exc with
          | notFound =>
            simp [pruneLoop, hp, hlt, hd] at h
            subst h
            simp [isStale, hp, hlt]
          | connError m =>
            simp [pruneLoop, hp, hlt, hd] at h
            subst h
            simp [isStale, hp, hlt]
        | ok ack =>
          simp [pruneLoop, hp, hlt, hd] at h
          rcases h with h | h
          · subst h
            simp [isStale, hp, hlt]
          · exact ih index h
      · simp [pruneLoop, hp, hlt] at h
        exact ih index h

/-- On a listing whose names all parse and whose needed deletes all return
a response, the loop finishes, issues exactly the stale names as delete
requests, and records each one with the acknowledged field of its
response. -/
theorem pruneLoop_clean (client : ESNode) (cutoff : Int) (ackF : String → Option Bool) :
    ∀ names : List String,
      (∀ i ∈ names, (parseIndexDate i).isOk = true) →
      (∀ i ∈ names, isStale cutoff i = true → client.deleteIndex i = .ok (ackF i)) →
      pruneLoop client cutoff names =
        ⟨names.filter (isStale cutoff),
         (names.filter (isStale cutoff)).map (fun i => (i, ackF i)),
         none⟩ := by
  intro names
  induction names with
  | nil => intro _ _; rfl
  | cons j rest ih =>
    intro h1 h2
    have hj := h1 j (by simp)
    have ihr := ih (fun i hi => h1 i (by simp [hi])) (fun i hi => h2 i (by simp [hi]))
    cases hp : parseIndexDate j with
    | error m => rw [hp] at hj; simp [Except.isOk, Except.toBool] at hj
    | ok d =>
      by_cases hlt : (d : Int) < cutoff
      · have hstale : isStale cutoff j = true := by simp [isStale, hp, hlt]
        have hd := h2 j (by simp) hstale
        simp [pruneLoop, hp, hlt, hd, ihr, List.filter_cons_of_pos hstale]
      · have hstale : ¬ (isStale cutoff j = true) := by simp [isStale, hp, hlt]
        simp [pruneLoop, hp, hlt, ihr,
          List.filter_cons_of_neg (by simpa using hstale)]

/-- When the loop over a first batch of names finishes without raising,
the loop over the concatenation processes the second batch afterwards,
concatenating requests and records. -/
theorem pruneLoop_append (client : ESNode) (cutoff : Int) :
    ∀ (xs ys : List String), (pruneLoop client cutoff xs).raised = none →
      pruneLoop client cutoff (xs ++ ys) =
        ⟨(pruneLoop client cutoff xs).reqs ++ (pruneLoop client cutoff ys).reqs,
         (pruneLoop client cutoff xs).record ++ (pruneLoop client cutoff ys).record,
         (pruneLoop client cutoff ys).raised⟩ := by
  intro xs
  induction xs with
  | nil => intro ys _; simp [pruneLoop]
  | cons j rest ih =>
    intro ys hnone
    cases hp : parseIndexDate j with
    | error m => simp [pruneLoop, hp] at hnone
    | ok d =>
      by_cases hlt : (d : Int) < cutoff
      · cases hd : client.deleteIndex j with
        | error exc => cases exc <;> simp [pruneLoop, hp, hlt, hd] at hnone
        | ok ack =>
          have hnone' : (pruneLoop client cutoff rest).raised = none := by
            simpa [pruneLoop, hp, hlt, hd] using hnone
          simp [pruneLoop, hp, hlt, hd, ih ys hnone']
      · have hnone' : (pruneLoop client cutoff rest).raised = none := by
          simpa [pruneLoop, hp, hlt] using hnone
        simp [pruneLoop, hp, hlt, ih ys hnone']

/-- A NodeReport returned by the per-node method is keyed by the node
address passed in. -/
theorem deleteIndicesOp_ok_fst (client : ESNode) (node pfx : String) (cutoff : Int)
    (rep : NodeReport) (h : (deleteIndicesOp client node pfx cutoff).result = .ok rep) :
    rep.1 = node := by
  unfold deleteIndicesOp at h
  cases hg : client.getIndices pfx with
  | error exc =>
    cases exc with
    | notFound =>
      rw [hg] at h
      simp at h
      rw [← h]
    | connError m => rw [hg] at h; simp at h
  | ok names =>
    rw [hg] at h
    cases hr : (pruneLoop client cutoff names).raised with
    | none =>
      simp [hr] at h
      rw [← h]
    | some exc =>
      cases exc with
      | notFound => simp [hr] at h; rw [← h]
      | connError m => simp [hr] at h
      | parseFail m => simp [hr] at h

/-- A node that processes successfully: its connection is established and
its pruning returns a report. -/
def nodeOk (env : ESEnv) (pfx : String) (cutoff : Int) (n : String) : Prop :=
  ∃ client rep, env.connect n = .ok client ∧
    (deleteIndicesOp client n pfx cutoff).result = .ok rep

/-- After a batch of successfully processed nodes, the run carries on with
the remaining nodes, prepending the reports of the batch. -/
theorem runJob_append (env : ESEnv) (pfx : String) (cutoff : Int) :
    ∀ pre : List String, (∀ n ∈ pre, nodeOk env pfx cutoff n) →
      ∃ preReps,
        (runJob env pfx cutoff pre).result = .ok preReps ∧
        (runJob env pfx cutoff pre).connectCalls = pre ∧
        ∀ rest : List String,
          (runJob env pfx cutoff (pre ++ rest)).connectCalls =
            pre ++ (runJob env pfx cutoff rest).connectCalls ∧
          (runJob env pfx cutoff (pre ++ rest)).deleteReqs =
            (runJob env pfx cutoff pre).deleteReqs ++
              (runJob env pfx cutoff rest).deleteReqs ∧
          (runJob env pfx cutoff (pre ++ rest)).result =
            ((runJob env pfx cutoff rest).result).map (fun l => preReps ++ l) := by
  intro pre
  induction pre with
  | nil =>
    intro _
    refine ⟨[], rfl, rfl, ?_⟩
    intro rest
    refine ⟨rfl, rfl, ?_⟩
    cases hres : (runJob env pfx cutoff rest).result <;> simp [Except.map, hres]
  | cons n pre' ih =>
    intro h
    obtain ⟨client, rep, hc, hd⟩ := h n (by simp)
    obtain ⟨preReps', hres', hcc', hrest'⟩ := ih (fun m hm => h m (by simp [hm]))
    refine ⟨rep :: preReps', ?_, ?_, ?_⟩
    · simp [runJob, hc, hd, hres', Except.map]
    · simp [runJob, hc, hd, hcc']
    · intro rest
      obtain ⟨hrc, hrd, hrr⟩ := hrest' rest
      refine ⟨?_, ?_, ?_⟩
      · simpa [runJob, hc, hd] using hrc
      · simpa [runJob, hc, hd] using hrd
      · have : (runJob env pfx cutoff (n :: (pre' ++ rest))).result =
            ((runJob env pfx cutoff (pre' ++ rest)).result).map (fun l => rep :: l) := by
          simp [runJob, hc, hd]
        rw [List.cons_append, this, hrr]
        cases hres : (runJob env pfx cutoff rest).result <;> simp [Except.map, hres]

/-! ### Further fixtures -/

/-- A node whose listing contains an index with an unparseable trailing
segment. -/
def nodeBad : ESNode :=
  ⟨fun _ => .ok [("filebeat-2023.11.01"), ("filebeat-bad")],
   fun _ => .ok (some true)⟩

/-- An environment in which every node is nodeBad. -/
def envBad : ESEnv := ⟨fun _ => .ok nodeBad⟩

/-- The ValueError message of the unparseable index of nodeBad. -/
def badMsg : String :=
  "time data " ++ sqc ++ "bad" ++ sqc ++ " does not match format " ++
    sqc ++ "%Y %m %d" ++ sqc

/-- An environment in which connecting to node A raises a transport
error. -/
def envConnFail : ESEnv :=
  ⟨fun n => if n = "A" then .error ("refused") else .ok nodeA⟩

/-! ### The claims -/

/-- C1: for every retention window R, construction computes the cutoff
date once as today minus R days, and the comparison against it is strict:
an index whose parsed trailing date equals the cutoff is retained (the
loop never issues a delete request for it, whatever the listing), while an
index dated one day before the cutoff is a deletion candidate (reaching it
issues the delete request). -/
theorem c1_cutoff_strict (today keep_in_days : Int) (nodes : List String)
    (pfx : String) (c : ESClient)
    (h : ESClient.init (.pyList nodes) today keep_in_days pfx = .ok c) :
    c.cutoff_date = today - keep_in_days ∧
    (∀ (client : ESNode) (names : List String) (index : String) (d : Nat),
      parseIndexDate index = .ok d → (d : Int) = c.cutoff_date →
      index ∉ (pruneLoop client c.cutoff_date names).reqs) ∧
    (∀ (client : ESNode) (index : String) (d : Nat),
      parseIndexDate index = .ok d → (d : Int) = c.cutoff_date - 1 →
      (pruneLoop client c.cutoff_date [index]).reqs = [index]) := by
  have hcut : c.cutoff_date = today - keep_in_days := by
    have hc : c = ⟨nodes, pfx, today - keep_in_days⟩ := by
      simpa [ESClient.init, NodesArg.isList, NodesArg.truthy, NodesArg.asNodes]
        using h.symm
    rw [hc]
  refine ⟨hcut, ?_, ?_⟩
  · intro client names index d hp hd hmem
    have hstale := mem_reqs_isStale client _ names index hmem
    rw [isStale, hp] at hstale
    simp at hstale
    omega
  · intro client index d hp hd
    have hlt : (d : Int) < c.cutoff_date := by omega
    cases hdel : client.deleteIndex index with
    | error exc => cases exc <;> simp [pruneLoop, hp, hlt, hdel]
    | ok ack => simp [pruneLoop, hp, hlt, hdel]

/-- Witness for C1 at the worked scenario: today 2024-06-01, retention
180 days, cutoff 2023-12-04; the index dated at the cutoff is retained,
the index dated one day earlier is deleted. -/
theorem c1_cutoff_strict_witness :
    (⟨["A"], ("filebeat-*"), 738858⟩ : ESClient).cutoff_date = 739038 - 180 ∧
    ("filebeat-2023.12.04") ∉
      (pruneLoop nodeA 738858
        [("filebeat-2023.12.04"), ("filebeat-2023.11.01")]).reqs ∧
    (pruneLoop nodeA 738858 [("filebeat-2023.12.03")]).reqs =
      [("filebeat-2023.12.03")] := by
  have h := c1_cutoff_strict 739038 180 ["A"] ("filebeat-*")
    ⟨["A"], ("filebeat-*"), 738858⟩ (by decide)
  exact ⟨h.1,
    h.2.1 nodeA [("filebeat-2023.12.04"), ("filebeat-2023.11.01")]
      ("filebeat-2023.12.04") 738858 (by decide) (by decide),
    h.2.2 nodeA ("filebeat-2023.12.03") 738857 (by decide) (by decide)⟩

/-- C2: the date compared against the cutoff is obtained by taking the
substring after the last dash, replacing each dot in it with a space, and
parsing the result with the year month day pattern; an index name whose
trailing segment does not parse raises a ValueError that propagates
uncaught out of the per-node pruning method and out of the run, rather
than being turned into a skip or a per-node result. -/
theorem c2_parse_pipeline (env : ESEnv) (client : ESNode) (node pfx : String)
    (cutoff : Int) (pre post : List String) (bad : String) (rest : List String)
    (m : String)
    (hc : env.connect node = .ok client)
    (hl : client.getIndices pfx = .ok (pre ++ bad :: post))
    (hpre : (pruneLoop client cutoff pre).raised = none)
    (hbad : parseIndexDate bad = .error m) :
    (∀ s : String, parseIndexDate s =
      parseDateYmd (dotToSpace ((splitDash s.data).getLastD []))) ∧
    (deleteIndicesOp client node pfx cutoff).result = .error (.valueError m) ∧
    (runJob env pfx cutoff (node :: rest)).result = .error (.valueError m) := by
  have hloop : (pruneLoop client cutoff (pre ++ bad :: post)).raised =
      some (.parseFail m) := by
    rw [pruneLoop_append client cutoff pre (bad :: post) hpre]
    simp [pruneLoop, hbad]
  have hop : (deleteIndicesOp client node pfx cutoff).result =
      .error (.valueError m) := by
    simp [deleteIndicesOp, hl, hloop]
  refine ⟨fun s => rfl, hop, ?_⟩
  simp [runJob, hc, hop]

/-- Witness for C2: a listing holding one well-formed index followed by
the index filebeat-bad crashes the per-node method and the run with the
strptime ValueError. -/
theorem c2_parse_pipeline_witness :
    parseIndexDate ("filebeat-bad") = .error badMsg ∧
    (deleteIndicesOp nodeBad ("N") ("filebeat-*") cutoffX).result =
      .error (.valueError badMsg) ∧
    (runJob envBad ("filebeat-*") cutoffX ["N"]).result =
      .error (.valueError badMsg) := by
  have h := c2_parse_pipeline envBad nodeBad ("N") ("filebeat-*") cutoffX
    [("filebeat-2023.11.01")] [] ("filebeat-bad") [] badMsg rfl rfl
    (by decide) (by decide)
  exact ⟨by decide, h.2.1, h.2.2⟩

/-- C3: if establishing a connection to any node raises a transport error,
or listing or deleting on any node raises a connection error, the job
terminates at that node with a SystemExit whose message names it: the
nodes after it are never contacted, no result list is produced, and the
notifier email is never sent. -/
theorem c3_fail_fast (env : ESEnv) (send : EmailMsg → Except String Unit)
    (pfx : String) (cutoff : Int) (pre post : List String) (bad : String)
    (cmsg fa ta subj : String)
    (hpre : ∀ n ∈ pre, nodeOk env pfx cutoff n)
    (hbad : env.connect bad = .error cmsg ∨
      ∃ client, env.connect bad = .ok client ∧
        (client.getIndices pfx = .error (.connError cmsg) ∨
         ∃ names, client.getIndices pfx = .ok names ∧
           (pruneLoop client cutoff names).raised = some (.connError cmsg))) :
    ∃ m, (runJob env pfx cutoff (pre ++ bad :: post)).result =
        .error (.systemExit m) ∧
      (m = "TransportError: " ++ bad ∨ m = failedConnectMsg bad) ∧
      (runJob env pfx cutoff (pre ++ bad :: post)).connectCalls = pre ++ [bad] ∧
      (mainJob env send (pre ++ bad :: post) pfx cutoff fa ta subj).sendCalls
        = [] ∧
      (mainJob env send (pre ++ bad :: post) pfx cutoff fa ta subj).result =
        .error (.systemExit m) := by
  obtain ⟨preReps, hres, hcc, hrest⟩ := runJob_append env pfx cutoff pre hpre
  obtain ⟨hrc, hrd, hrr⟩ := hrest (bad :: post)
  have hbadrun : ∃ m,
      (runJob env pfx cutoff (bad :: post)).result = .error (.systemExit m) ∧
      (m = "TransportError: " ++ bad ∨ m = failedConnectMsg bad) ∧
      (runJob env pfx cutoff (bad :: post)).connectCalls = [bad] := by
    rcases hbad with hconn | ⟨client, hok, hin⟩
    · exact ⟨"TransportError: " ++ bad, by simp [runJob, hconn],
        Or.inl rfl, by simp [runJob, hconn]⟩
    · have hop : (deleteIndicesOp client bad pfx cutoff).result =
          .error (.systemExit (failedConnectMsg bad)) := by
        rcases hin with hin | ⟨names, hnames, hraise⟩
        · simp [deleteIndicesOp, hin]
        · simp [deleteIndicesOp, hnames, hraise]
      exact ⟨failedConnectMsg bad, by simp [runJob, hok, hop],
        Or.inr rfl, by simp [runJob, hok, hop]⟩
  obtain ⟨m, hm, hname, hbcc⟩ := hbadrun
  have hrunres : (runJob env pfx cutoff (pre ++ bad :: post)).result =
      .error (.systemExit m) := by
    rw [hrr, hm]
    simp [Except.map]
  refine ⟨m, hrunres, hname, ?_, ?_, ?_⟩
  · rw [hrc, hbcc]
  · simp [mainJob, hrunres]
  · simp [mainJob, hrunres]

/-- Witness for C3: connecting to node A fails in envConnFail, so the run
over A and B dies with a SystemExit naming A, node B is never contacted,
and no email is sent. -/
theorem c3_fail_fast_witness :
    ∃ m, (runJob envConnFail ("filebeat-*") cutoffX ["A", "B"]).result =
        .error (.systemExit m) ∧
      (m = "TransportError: " ++ "A" ∨ m = failedConnectMsg ("A")) ∧
      (runJob envConnFail ("filebeat-*") cutoffX ["A", "B"]).connectCalls =
        [] ++ ["A"] ∧
      (mainJob envConnFail sendOk ["A", "B"] ("filebeat-*") cutoffX
        ("from") ("to") ("subj")).sendCalls = [] ∧
      (mainJob envConnFail sendOk ["A", "B"] ("filebeat-*") cutoffX
        ("from") ("to") ("subj")).result = .error (.systemExit m) := by
  exact c3_fail_fast envConnFail sendOk ("filebeat-*") cutoffX [] ["B"] ("A")
    ("refused") ("from") ("to") ("subj") (by simp) (Or.inl rfl)

/-- C4 (the code contradicts it): the constructor guard joins the
isinstance test and the emptiness test with a conjunction, so an empty
node list passes it: the client is constructed, the run processes zero
nodes and returns an empty result, and the notifier is still invoked.
Only a falsy non-list argument such as None raises at construction. -/
theorem c4_empty_list_constructs (today keep_in_days : Int)
    (pfx fa ta subj : String) (env : ESEnv) :
    ESClient.init (.pyList []) today keep_in_days pfx =
      .ok ⟨[], pfx, today - keep_in_days⟩ ∧
    (runJob env pfx (today - keep_in_days) []).result = .ok [] ∧
    (mainJob env sendOk [] pfx (today - keep_in_days) fa ta subj).sendCalls =
      [⟨fa, ta, subj, []⟩] ∧
    ESClient.init .pyNone today keep_in_days pfx =
      .error (.systemExit ("List of one or more Elasticsearch nodes needed")) := by
  exact ⟨rfl, rfl, rfl, rfl⟩

/-- C5: when the listing reports the not-found condition, the per-node
method returns the report with an empty record and issues no delete
request, and the run carries on with the remaining nodes. -/
theorem c5_not_found_empty_report (env : ESEnv) (client : ESNode)
    (node pfx : String) (cutoff : Int) (rest : List String)
    (hc : env.connect node = .ok client)
    (hl : client.getIndices pfx = .error .notFound) :
    deleteIndicesOp client node pfx cutoff = ⟨[], .ok (node, [])⟩ ∧
    (runJob env pfx cutoff (node :: rest)).result =
      ((runJob env pfx cutoff rest).result).map
        (fun l => (node, ([] : DelRecord)) :: l) ∧
    (runJob env pfx cutoff (node :: rest)).connectCalls =
      node :: (runJob env pfx cutoff rest).connectCalls := by
  have hop : deleteIndicesOp client node pfx cutoff = ⟨[], .ok (node, [])⟩ := by
    simp [deleteIndicesOp, hl]
  refine ⟨hop, ?_, ?_⟩ <;> simp [runJob, hc, hop]

/-- Witness for C5: node B of the worked scenario lists nothing; its
report is the empty mapping and the run ends normally. -/
theorem c5_not_found_empty_report_witness :
    deleteIndicesOp nodeB ("B") ("filebeat-*") cutoffX = ⟨[], .ok (("B"), [])⟩ ∧
    (runJob envAB ("filebeat-*") cutoffX ["B"]).result =
      .ok [(("B"), ([] : DelRecord))] := by
  have h := c5_not_found_empty_report envAB nodeB ("B") ("filebeat-*") cutoffX
    [] rfl rfl
  exact ⟨h.1, (h.2.1).trans (by decide)⟩

/-- A node whose delete response carries no acknowledged field. -/
def nodeNoAck : ESNode :=
  ⟨fun _ => .ok [("filebeat-2023.11.01")], fun _ => .ok none⟩

/-- Modelled from the claim wording: the value the DeletionRecord is said
to map a deleted index to, namely the acknowledgement flag of the
response, or the boolean false when the field is absent. -/
def claimedAckValue (resp : Option Bool) : Option Bool :=
  some (resp.getD false)

/-- Counterexample to C6: for a delete response without an acknowledged
field, the code stores the Python None returned by dict.get (no default),
not the boolean false the claim states. -/
theorem c6_counterexample :
    (deleteIndicesOp nodeNoAck ("A") ("filebeat-*") cutoffX).result =
      .ok (("A"), [(("filebeat-2023.11.01"), (none : Option Bool))]) ∧
    claimedAckValue none = some false ∧
    (none : Option Bool) ≠ claimedAckValue none := by
  exact ⟨by decide, by decide, by decide⟩

/-- C6 as amended: the DeletionRecord maps each deleted index name to the
raw acknowledged field of its delete response, which is None (absent),
not false, when the response contains no acknowledgement field. -/
theorem c6_ack_recorded (client : ESNode) (cutoff : Int)
    (ackF : String → Option Bool) (names : List String)
    (h1 : ∀ i ∈ names, (parseIndexDate i).isOk = true)
    (h2 : ∀ i ∈ names, isStale cutoff i = true →
      client.deleteIndex i = .ok (ackF i)) :
    (pruneLoop client cutoff names).record =
      (names.filter (isStale cutoff)).map (fun i => (i, ackF i)) := by
  rw [pruneLoop_clean client cutoff ackF names h1 h2]

/-- A node acknowledging one delete and answering the other with a
response lacking the acknowledged field. -/
def nodeMix : ESNode :=
  ⟨fun _ => .ok [("filebeat-2023.11.01"), ("filebeat-2023.10.01")],
   fun i => if i = "filebeat-2023.11.01" then .ok (some true) else .ok none⟩

/-- The acknowledged fields returned by nodeMix. -/
def ackMix : String → Option Bool :=
  fun i => if i = "filebeat-2023.11.01" then some true else none

/-- Witness for the amended C6: one deleted index is recorded with its
acknowledgement flag, the other with None for the absent field. -/
theorem c6_ack_recorded_witness :
    (pruneLoop nodeMix cutoffX
      [("filebeat-2023.11.01"), ("filebeat-2023.10.01")]).record =
      [(("filebeat-2023.11.01"), some true), (("filebeat-2023.10.01"), none)] := by
  have h := c6_ack_recorded nodeMix cutoffX ackMix
    [("filebeat-2023.11.01"), ("filebeat-2023.10.01")] (by decide) (by decide)
  exact h.trans (by decide)

/-- C7: on a listing whose names all parse and whose deletes all return,
the set of indices a delete request is issued for is exactly the set of
listed names whose parsed trailing date is strictly before the cutoff,
and reordering the listing only permutes the issued requests. -/
theorem c7_candidate_set (client : ESNode) (cutoff : Int)
    (ackF : String → Option Bool) (names names2 : List String)
    (h1 : ∀ i ∈ names, (parseIndexDate i).isOk = true)
    (h2 : ∀ i ∈ names, isStale cutoff i = true →
      client.deleteIndex i = .ok (ackF i))
    (hperm : names2.Perm names) :
    (pruneLoop client cutoff names).reqs = names.filter (isStale cutoff) ∧
    ((pruneLoop client cutoff names2).reqs).Perm
      ((pruneLoop client cutoff names).reqs) := by
  have e1 := pruneLoop_clean client cutoff ackF names h1 h2
  have e2 := pruneLoop_clean client cutoff ackF names2
    (fun i hi => h1 i (hperm.mem_iff.mp hi))
    (fun i hi => h2 i (hperm.mem_iff.mp hi))
  constructor
  · rw [e1]
  · rw [e1, e2]
    exact hperm.filter (isStale cutoff)

/-- Witness for C7: the two listings of the scenario node in either order
issue exactly the one stale delete request. -/
theorem c7_candidate_set_witness :
    (pruneLoop nodeA cutoffX
      [("filebeat-2023.11.01"), ("filebeat-2024.01.01")]).reqs =
      [("filebeat-2023.11.01")] ∧
    ((pruneLoop nodeA cutoffX
      [("filebeat-2024.01.01"), ("filebeat-2023.11.01")]).reqs).Perm
      ((pruneLoop nodeA cutoffX
        [("filebeat-2023.11.01"), ("filebeat-2024.01.01")]).reqs) := by
  have h := c7_candidate_set nodeA cutoffX (fun _ => some true)
    [("filebeat-2023.11.01"), ("filebeat-2024.01.01")]
    [("filebeat-2024.01.01"), ("filebeat-2023.11.01")]
    (by decide) (by decide) (by decide)
  exact ⟨h.1.trans (by decide), h.2⟩

/-- The list of node addresses a run result is keyed by, in order. -/
theorem runJob_ok_fst (env : ESEnv) (pfx : String) (cutoff : Int) :
    ∀ (nodes : List String) (reports : List NodeReport),
      (runJob env pfx cutoff nodes).result = .ok reports →
      reports.map Prod.fst = nodes := by
  intro nodes
  induction nodes with
  | nil =>
    intro reports h
    simp [runJob] at h
    subst h
    rfl
  | cons n rest ih =>
    intro reports h
    cases hc : env.connect n with
    | error m => simp [runJob, hc] at h
    | ok client =>
      cases hd : (deleteIndicesOp client n pfx cutoff).result with
      | error exc => simp [runJob, hc, hd] at h
      | ok rep =>
        have hres : (runJob env pfx cutoff (n :: rest)).result =
            ((runJob env pfx cutoff rest).result).map (fun l => rep :: l) := by
          simp [runJob, hc, hd]
        rw [hres] at h
        cases hr : (runJob env pfx cutoff rest).result with
        | error exc => rw [hr] at h; simp [Except.map] at h
        | ok reps =>
          rw [hr] at h
          simp [Except.map] at h
          rw [← h]
          simp [ih reps hr, deleteIndicesOp_ok_fst client n pfx cutoff rep hd]

/-- C8: when every node is processed successfully, the aggregated result
handed to the notifier has exactly one entry per input node, in input
order, each keyed by that node address, and the notifier is invoked once
with exactly that content. -/
theorem c8_run_result_shape (env : ESEnv) (send : EmailMsg → Except String Unit)
    (pfx : String) (cutoff : Int) (fa ta subj : String)
    (nodes : List String) (reports : List NodeReport)
    (h : (runJob env pfx cutoff nodes).result = .ok reports) :
    reports.map Prod.fst = nodes ∧
    (mainJob env send nodes pfx cutoff fa ta subj).sendCalls =
      [⟨fa, ta, subj, reports⟩] := by
  refine ⟨runJob_ok_fst env pfx cutoff nodes reports h, ?_⟩
  cases hs : send ⟨fa, ta, subj, reports⟩ <;> simp [mainJob, h, hs]

/-- Witness for C8 at the worked scenario: two nodes, two reports, keyed
A then B, and one notifier call carrying them. -/
theorem c8_run_result_shape_witness :
    ([(("A"), [(("filebeat-2023.11.01"), some true)]),
      (("B"), ([] : DelRecord))].map Prod.fst : List String) = ["A", "B"] ∧
    (mainJob envAB sendOk ["A", "B"] ("filebeat-*") cutoffX
      ("from") ("to") ("subj")).sendCalls =
      [⟨("from"), ("to"), ("subj"),
        [(("A"), [(("filebeat-2023.11.01"), some true)]), (("B"), [])]⟩] := by
  exact c8_run_result_shape envAB sendOk ("filebeat-*") cutoffX
    ("from") ("to") ("subj") ["A", "B"]
    [(("A"), [(("filebeat-2023.11.01"), some true)]), (("B"), [])] (by decide)

/-- C9: when the run has succeeded and the SMTP send fails, the notifier
makes exactly one send attempt (no retry) and the SMTP exception
propagates uncaught to the caller, while the delete requests of the run
are exactly what they were before the send: the notifier issues no
further deletion and rolls nothing back. -/
theorem c9_smtp_failure (env : ESEnv) (send : EmailMsg → Except String Unit)
    (nodes : List String) (pfx : String) (cutoff : Int)
    (fa ta subj m : String) (reports : List NodeReport)
    (hrun : (runJob env pfx cutoff nodes).result = .ok reports)
    (hsend : send ⟨fa, ta, subj, reports⟩ = .error m) :
    (mainJob env send nodes pfx cutoff fa ta subj).result =
      .error (.smtpException m) ∧
    (mainJob env send nodes pfx cutoff fa ta subj).sendCalls =
      [⟨fa, ta, subj, reports⟩] ∧
    (mainJob env send nodes pfx cutoff fa ta subj).deleteReqs =
      (runJob env pfx cutoff nodes).deleteReqs := by
  refine ⟨?_, ?_, ?_⟩ <;> simp [mainJob, hrun, hsend]

/-- Witness for C9: the scenario run succeeds, the relay refuses, the
exception escapes, and the one issued delete request is unchanged. -/
theorem c9_smtp_failure_witness :
    (mainJob envAB sendFail ["A", "B"] ("filebeat-*") cutoffX
      ("from") ("to") ("subj")).result =
      .error (.smtpException ("relay refused")) ∧
    (mainJob envAB sendFail ["A", "B"] ("filebeat-*") cutoffX
      ("from") ("to") ("subj")).sendCalls =
      [⟨("from"), ("to"), ("subj"),
        [(("A"), [(("filebeat-2023.11.01"), some true)]), (("B"), [])]⟩] ∧
    (mainJob envAB sendFail ["A", "B"] ("filebeat-*") cutoffX
      ("from") ("to") ("subj")).deleteReqs =
      (runJob envAB ("filebeat-*") cutoffX ["A", "B"]).deleteReqs := by
  exact c9_smtp_failure envAB sendFail ["A", "B"] ("filebeat-*") cutoffX
    ("from") ("to") ("subj") ("relay refused")
    [(("A"), [(("filebeat-2023.11.01"), some true)]), (("B"), [])]
    (by decide) rfl

/-- C10: when a not-found error is raised partway through a node's
pruning loop by the delete of one candidate index, the remaining listed
indices are silently skipped, the method still returns the node's report
holding exactly the acknowledgements recorded before the error, and the
run carries on with the next node. -/
theorem c10_partial_record (env : ESEnv) (client : ESNode) (node pfx : String)
    (cutoff : Int) (ackF : String → Option Bool) (pre post : List String)
    (bad : String) (rest : List String)
    (hc : env.connect node = .ok client)
    (hl : client.getIndices pfx = .ok (pre ++ bad :: post))
    (h1 : ∀ i ∈ pre, (parseIndexDate i).isOk = true)
    (h2 : ∀ i ∈ pre, isStale cutoff i = true →
      client.deleteIndex i = .ok (ackF i))
    (hstale : isStale cutoff bad = true)
    (hdel : client.deleteIndex bad = .error .notFound) :
    (deleteIndicesOp client node pfx cutoff).result =
      .ok (node, (pre.filter (isStale cutoff)).map (fun i => (i, ackF i))) ∧
    (deleteIndicesOp client node pfx cutoff).reqs =
      pre.filter (isStale cutoff) ++ [bad] ∧
    (runJob env pfx cutoff (node :: rest)).result =
      ((runJob env pfx cutoff rest).result).map
        (fun l =>
          (node, (pre.filter (isStale cutoff)).map (fun i => (i, ackF i))) :: l) := by
  have hclean := pruneLoop_clean client cutoff ackF pre h1 h2
  obtain ⟨d, hp, hlt⟩ : ∃ d, parseIndexDate bad = .ok d ∧ (d : Int) < cutoff := by
    rw [isStale] at hstale
    cases hpb : parseIndexDate bad with
    | error m => rw [hpb] at hstale; simp at hstale
    | ok d => rw [hpb] at hstale; simp at hstale; exact ⟨d, rfl, hstale⟩
  have hbadloop : pruneLoop client cutoff (bad :: post) =
      ⟨[bad], [], some .notFound⟩ := by
    simp [pruneLoop, hp, hlt, hdel]
  have hloop : pruneLoop client cutoff (pre ++ bad :: post) =
      ⟨pre.filter (isStale cutoff) ++ [bad],
       (pre.filter (isStale cutoff)).map (fun i => (i, ackF i)),
       some .notFound⟩ := by
    rw [pruneLoop_append client cutoff pre (bad :: post) (by rw [hclean])]
    rw [hclean, hbadloop]
    simp
  have hop1 : (deleteIndicesOp client node pfx cutoff).result =
      .ok (node, (pre.filter (isStale cutoff)).map (fun i => (i, ackF i))) := by
    simp [deleteIndicesOp, hl, hloop]
  have hop2 : (deleteIndicesOp client node pfx cutoff).reqs =
      pre.filter (isStale cutoff) ++ [bad] := by
    simp [deleteIndicesOp, hl, hloop]
  refine ⟨hop1, hop2, ?_⟩
  simp [runJob, hc, hop1]

/-- A node listing three stale indices whose middle delete raises the
not-found error. -/
def nodeDelNF : ESNode :=
  ⟨fun _ => .ok [("filebeat-2023.11.01"), ("filebeat-2023.10.01"),
      ("filebeat-2023.09.01")],
   fun i => if i = "filebeat-2023.10.01" then .error .notFound
     else .ok (some true)⟩

/-- An environment in which every node is nodeDelNF. -/
def envDelNF : ESEnv := ⟨fun _ => .ok nodeDelNF⟩

/-- Witness for C10: the second delete raises not-found, the third index
is skipped, the report keeps the first acknowledgement only, and the run
still processes the following node. -/
theorem c10_partial_record_witness :
    (deleteIndicesOp nodeDelNF ("N") ("filebeat-*") cutoffX).result =
      .ok (("N"), [(("filebeat-2023.11.01"), some true)]) ∧
    (deleteIndicesOp nodeDelNF ("N") ("filebeat-*") cutoffX).reqs =
      [("filebeat-2023.11.01"), ("filebeat-2023.10.01")] ∧
    (runJob envDelNF ("filebeat-*") cutoffX ["N", "M"]).result =
      .ok [(("N"), [(("filebeat-2023.11.01"), some true)]),
           (("M"), [(("filebeat-2023.11.01"), some true)])] := by
  have h := c10_partial_record envDelNF nodeDelNF ("N") ("filebeat-*") cutoffX
    (fun _ => some true) [("filebeat-2023.11.01")] [("filebeat-2023.09.01")]
    ("filebeat-2023.10.01") ["M"] rfl rfl (by decide) (by decide)
    (by decide) (by decide)
  exact ⟨h.1.trans (by decide), h.2.1.trans (by decide), h.2.2.trans (by decide)⟩
